import Mathlib

/-!
Verification of the washing-tracker meter-reading service.

A shallow embedding of the repository's decision logic:
  * src/src/index.mjs          — the HTTP route handlers (auth middleware,
    parseYearMonth, GET /readings, POST /readings, GET /latest-kwh)
  * src/src/public/home/js/main.js — the front-end aggregation engine
    (round1, aggregateYear)

JavaScript numbers are modelled as rationals (ℚ), epoch-millisecond
timestamps as integers (ℤ); request fields that may be absent or
non-numeric are modelled as Option values.  The persistent store is a
list of readings; DynamoDB access patterns (max-timestamp lookup, range
query with an inclusive BETWEEN condition, keyed delete) are modelled as
list operations.
-/

namespace WashingTracker

/-- JavaScript `a || dflt` for a possibly-absent string field: absent
(`none`), and the falsy empty string, both fall through to `dflt`. -/
def jsOrS : Option String → String → String
  | none, dflt => dflt
  | some s, dflt => if s = "" then dflt else s

/-- `Math.round` / the rounding step of `Number.prototype.toFixed`:
nearest integer, ties toward positive infinity. -/
def jsRound (q : ℚ) : ℤ := ⌊q + 1/2⌋

/-- `parseFloat((x).toFixed(3))` from the POST /readings handler:
round to 3 decimal places. -/
def round3 (q : ℚ) : ℚ := (jsRound (q * 1000) : ℚ) / 1000

/-- `round1` from main.js: `Math.round(n * 2) / 2` — despite its name it
rounds to the nearest 0.5 (the fixed rounding rule of the front end). -/
def round1 (q : ℚ) : ℚ := (jsRound (q * 2) : ℚ) / 2

/-! ### UTC calendar arithmetic (`Date.UTC`, `getUTCMonth`)

The proleptic-Gregorian day-number conversions used by the JavaScript
`Date` built-ins, via the standard era/day-of-era decomposition. -/

def msPerDay : ℤ := 86400000

/-- Day number (days since 1970-01-01) of the civil date `(y, m, d)`,
`m` being 1-based.  Mirrors the arithmetic performed by `Date.UTC`. -/
def daysFromCivil (y m d : ℤ) : ℤ :=
  let y' := if m ≤ 2 then y - 1 else y
  let era := Int.fdiv y' 400
  let yoe := y' - era * 400
  let mp := if m > 2 then m - 3 else m + 9
  let doy := Int.fdiv (153 * mp + 2) 5 + d - 1
  let doe := yoe * 365 + Int.fdiv yoe 4 - Int.fdiv yoe 100 + doy
  era * 146097 + doe - 719468

/-- `Date.UTC(year, month0, day, 0, 0, 0)` in epoch milliseconds;
`month0` is 0-based and may overflow past 11 (normalized as JS does,
e.g. `Date.UTC(y, 12, 1) = Date.UTC(y + 1, 0, 1)`). -/
def dateUTC (year month0 day : ℤ) : ℤ :=
  let y := year + Int.fdiv month0 12
  let m := Int.fmod month0 12
  daysFromCivil y (m + 1) day * msPerDay

/-- Civil date `(year, month)` (month 1-based) of a day number:
the inverse decomposition used by `getUTCFullYear` / `getUTCMonth`. -/
def civilOfDay (z : ℤ) : ℤ × ℤ :=
  let z' := z + 719468
  let era := Int.fdiv z' 146097
  let doe := z' - era * 146097
  let yoe := Int.fdiv (doe - Int.fdiv doe 1460 + Int.fdiv doe 36524 - Int.fdiv doe 146096) 365
  let y := yoe + era * 400
  let doy := doe - (365 * yoe + Int.fdiv yoe 4 - Int.fdiv yoe 100)
  let mp := Int.fdiv (5 * doy + 2) 153
  let m := if mp < 10 then mp + 3 else mp - 9
  (if m ≤ 2 then y + 1 else y, m)

/-- `new Date(ts).getUTCMonth() + 1`: the 1-based UTC calendar month of a
timestamp — the key used for the per-month aggregation buckets. -/
def monthKeyOfTs (ts : ℤ) : ℤ := (civilOfDay (Int.fdiv ts msPerDay)).2

/-- `ymKeyParts(dateMs)` from index.mjs, reduced to the (year, month)
pair that keys the monthly aggregate row. -/
def ymKeyOfTs (ts : ℤ) : ℤ × ℤ := civilOfDay (Int.fdiv ts msPerDay)

/-! ### Data model -/

/-- One persisted meter reading (the wire shape of the table items).
`username`, `createdBy` and `ownerUsername` are optional because rows
written by different evolutionary variants of the backend carry
different subsets of them; `onBehalf` is absent-or-boolean, absent being
falsy. `GlobalPK` is the constant partition marker `ALL_READINGS`. -/
structure Reading where
  washId : String
  username : Option String
  createdBy : Option String
  ownerUsername : Option String
  onBehalf : Bool
  startKWh : ℚ
  endKWh : ℚ
  deltaKWh : ℚ
  notes : String
  timestamp : ℤ
  GlobalPK : String
  deriving DecidableEq, Repr

/-- The table, split by partition: the `ALL_READINGS` partition is the
list of readings; the `ACCOUNT#user#ym` aggregate rows are modelled by
their `totalKWh` attribute, indexed by (username, year, month), absent
rows reading as 0 (DynamoDB `ADD` starts from 0). -/
structure ServerState where
  readings : List Reading
  aggTotals : String → ℤ → ℤ → ℚ

/-! ### Store adapter: most-recent lookup -/

/-- Keep the later of two readings by `timestamp` (ties keep the first). -/
def moreRecent (a b : Reading) : Reading :=
  if a.timestamp < b.timestamp then b else a

/-- The single reading with the greatest `timestamp`, or none if the
store is empty — the `TimestampIndex` query with
`ScanIndexForward: false, Limit: 1`. -/
def mostRecent (store : List Reading) : Option Reading :=
  store.foldl
    (fun acc r =>
      match acc with
      | none => some r
      | some m => some (moreRecent m r))
    none

/-- `typeof lastReading?.endKWh === 'number' ? lastReading.endKWh : 0`
from the POST handler; in this typed model a stored `endKWh` is always a
number, so the typeof guard only distinguishes the empty store. -/
def latestEndKWh (store : List Reading) : ℚ :=
  match mostRecent store with
  | some last => last.endKWh
  | none => 0

/-! ### Time-Window Calculator (`parseYearMonth` in index.mjs) -/

structure Window where
  year : ℤ
  startTimestamp : ℤ
  endTimestamp : ℤ
  deriving DecidableEq, Repr

/-- `!isNaN(parseInt(queryMonth)) && parseInt(queryMonth) >= 1 && parseInt(queryMonth) <= 12`;
the query parameter is modelled post-`parseInt`, `none` standing for an
absent or unparseable value (NaN). -/
def validMonth : Option ℤ → Bool
  | some qm => 1 ≤ qm && qm ≤ 12
  | none => false

/-- `parseYearMonth(queryYear, queryMonth)`.  `nowUTCYear` is the
current UTC year read from `new Date()` by the source, passed explicitly
here. -/
def parseYearMonth (queryYear queryMonth : Option ℤ) (nowUTCYear : ℤ) : Window :=
  let year := queryYear.getD nowUTCYear
  if validMonth queryMonth then
    let month := queryMonth.getD 1 - 1
    ⟨year, dateUTC year month 1, dateUTC year (month + 1) 1⟩
  else
    ⟨year, dateUTC year 0 1, dateUTC (year + 1) 0 1⟩

/-! ### GET /readings -/

/-- The GET /readings handler: window from `parseYearMonth`, then a
DynamoDB Query with key condition
`GlobalPK = :pk AND #ts BETWEEN :start AND :end`.
DynamoDB's BETWEEN operator is inclusive on BOTH bounds, so the filter
below is `start ≤ ts ∧ ts ≤ end`.  `ScanIndexForward: false` returns
matches newest-first; ordering is presentational and the result is
modelled as the matching sublist in store order. -/
def listReadings (store : List Reading) (queryYear queryMonth : Option ℤ)
    (nowUTCYear : ℤ) : List Reading :=
  let w := parseYearMonth queryYear queryMonth nowUTCYear
  store.filter (fun r => w.startTimestamp ≤ r.timestamp && r.timestamp ≤ w.endTimestamp)

/-! ### POST /readings (index.mjs) -/

/-- Outcome of the POST /readings handler: HTTP status, the persisted
reading echoed in the 201 body (none on failure), and the store after
the request. -/
structure CreateResult where
  status : ℕ
  reading : Option Reading
  state : ServerState

/-- The POST /readings handler of src/src/index.mjs.  `currentKWh` is
the request-body field after JSON parsing, `none` standing for a value
that is missing, not of number type, or not finite (NaN / ±Infinity
have no rational image).  `notes` defaults to the empty string.
`now` is `Date.now()` and `newId` the generated `uuidv4()`.
On validation failure the handler returns 400 before any write. -/
def createReading (principal : String) (currentKWh : Option ℚ)
    (notes : Option String) (st : ServerState) (now : ℤ) (newId : String) :
    CreateResult :=
  match currentKWh with
  | none => ⟨400, none, st⟩
  | some c =>
    if c ≤ 0 then ⟨400, none, st⟩
    else
      let startKWh := latestEndKWh st.readings
      let endKWh := c
      let deltaKWh := round3 (endKWh - startKWh)
      if deltaKWh ≤ 0 then ⟨400, none, st⟩
      else
        let ym := ymKeyOfTs now
        let reading : Reading :=
          { washId := newId
            username := some principal
            createdBy := none
            ownerUsername := none
            onBehalf := false
            startKWh := startKWh
            endKWh := endKWh
            deltaKWh := deltaKWh
            notes := notes.getD ""
            timestamp := now
            GlobalPK := "ALL_READINGS" }
        let readings' := reading :: st.readings
        let agg' := fun u y m =>
          if u = principal ∧ y = ym.1 ∧ m = ym.2 then
            st.aggTotals u y m + deltaKWh
          else st.aggTotals u y m
        ⟨201, some reading, ⟨readings', agg'⟩⟩

/-! ### GET /latest-kwh -/

/-- The GET /latest-kwh handler: `{ latestEndKWh: last?.endKWh ?? 0 }`
where `last` comes from the newest-first query with `Limit: 1`. -/
def latestKwhHandler (store : List Reading) : ℚ :=
  match mostRecent store with
  | some last => last.endKWh
  | none => 0

/-! ### Identity Resolver (`checkAuthentication` in index.mjs) -/

/-- A cookie value as seen by the middleware: a string, or present but
not a string. -/
inductive CookieVal where
  | str (s : String)
  | nonString
  deriving DecidableEq

/-- The `custom` claim object of a decoded token. -/
structure CustomClaims where
  family_name : Option String
  deriving DecidableEq

/-- A decoded token object (`jwt.decode` result when it is an object). -/
structure Claims where
  custom : Option CustomClaims
  deriving DecidableEq

/-- `decoded.custom?.family_name || 'unknown'`. -/
def principalOf (claims : Claims) : String :=
  jsOrS (claims.custom.bind (fun c => c.family_name)) "unknown"

inductive AuthResult where
  | unauthorized (message : String)
  | ok (principal : String) (claims : Claims)
  deriving DecidableEq

/-- The `checkAuthentication` middleware.  `decode` abstracts
`jwt.decode`, returning `none` when the token does not decode to an
object.  `!accessToken` is JavaScript-falsy, so a present-but-empty
string token is rejected by the first guard as well. -/
def checkAuthentication (cookie : Option CookieVal)
    (decode : String → Option Claims) : AuthResult :=
  match cookie with
  | none => .unauthorized "Authentication required: No token provided or invalid type."
  | some .nonString => .unauthorized "Authentication required: No token provided or invalid type."
  | some (.str s) =>
    if s = "" then
      .unauthorized "Authentication required: No token provided or invalid type."
    else
      match decode s with
      | none => .unauthorized "Authentication failed: Invalid token structure."
      | some claims => .ok (principalOf claims) claims

structure HttpResponse where
  status : ℕ
  message : String
  deriving DecidableEq

/-- A route guarded by the middleware, as every route of index.mjs is:
the route body only runs when `checkAuthentication` called `next()`. -/
def withAuth (cookie : Option CookieVal) (decode : String → Option Claims)
    (route : String → HttpResponse) : HttpResponse :=
  match checkAuthentication cookie decode with
  | .unauthorized msg => ⟨401, msg⟩
  | .ok principal _ => route principal

/-! ### Aggregation Engine (`aggregateYear` in main.js) -/

/-- `r.ownerUsername || r.username || 'Unbekannt'`: the effective owner
label a reading is grouped under. -/
def aggUser (r : Reading) : String :=
  jsOrS r.ownerUsername (jsOrS r.username "Unbekannt")

/-- `round1(parseNum(r.deltaKWh))`: the rounded delta a reading
contributes; `parseNum` is the identity on the ℚ-valued field. -/
def aggDelta (r : Reading) : ℚ := round1 r.deltaKWh

/-- One `byUser` entry: `{ kWh, count, min, max }`.  `minD = none`
encodes the `Infinity` initial sentinel, `maxD = none` the `-Infinity`
one. -/
structure UserAgg where
  kWh : ℚ
  count : ℕ
  minD : Option ℚ
  maxD : Option ℚ
  deriving DecidableEq, Repr

/-- `Math.min(byUser[user].min, d)` with `none` as `Infinity`. -/
def jsMinQ (a : Option ℚ) (d : ℚ) : ℚ :=
  match a with
  | none => d
  | some x => min x d

/-- `Math.max(byUser[user].max, d)` with `none` as `-Infinity`. -/
def jsMaxQ (a : Option ℚ) (d : ℚ) : ℚ :=
  match a with
  | none => d
  | some x => max x d

def jsMinTs (a : Option ℤ) (t : ℤ) : ℤ :=
  match a with
  | none => t
  | some x => min x t

def jsMaxTs (a : Option ℤ) (t : ℤ) : ℤ :=
  match a with
  | none => t
  | some x => max x t

/-- The loop accumulators of `aggregateYear`.  `byUser` maps a user
label to its entry (`none` = key absent); `byMonthUser` reads absent
nested keys as 0, matching the `(byMonthUser[m]?.[user]) || 0` access;
`firstTs`/`lastTs` use `none` for the ±Infinity sentinels. -/
structure AggState where
  byUser : String → Option UserAgg
  byMonthUser : ℤ → String → ℚ
  totalKWh : ℚ
  totalCount : ℕ
  firstTs : Option ℤ
  lastTs : Option ℤ

def aggInit : AggState :=
  ⟨fun _ => none, fun _ _ => 0, 0, 0, none, none⟩

/-- The body of `for (const r of readings) { ... }` in `aggregateYear`.
A missing `byUser` entry is created as `{kWh: 0, count: 0, min: Infinity,
max: -Infinity}` and then updated, which the `getD` default mirrors. -/
def aggStep (s : AggState) (r : Reading) : AggState :=
  let user := aggUser r
  let d := aggDelta r
  let prev := (s.byUser user).getD ⟨0, 0, none, none⟩
  let entry : UserAgg :=
    ⟨prev.kWh + d, prev.count + 1, some (jsMinQ prev.minD d), some (jsMaxQ prev.maxD d)⟩
  let m := monthKeyOfTs r.timestamp
  { byUser := fun u => if u = user then some entry else s.byUser u
    byMonthUser := fun mk u =>
      if mk = m ∧ u = user then s.byMonthUser mk u + d else s.byMonthUser mk u
    totalKWh := s.totalKWh + d
    totalCount := s.totalCount + 1
    firstTs := some (jsMinTs s.firstTs r.timestamp)
    lastTs := some (jsMaxTs s.lastTs r.timestamp) }

/-- The post-loop normalization
`if (byUser[u].min === Infinity) byUser[u].min = 0` (and the `-Infinity`
case for max); it can only see entries created by the loop, whose
min/max are always set, so it resolves the sentinel to 0. -/
def normUserAgg (a : UserAgg) : UserAgg :=
  ⟨a.kWh, a.count, some (a.minD.getD 0), some (a.maxD.getD 0)⟩

/-- The value `aggregateYear` returns. -/
structure AggResult where
  byUser : String → Option UserAgg
  byMonthUser : ℤ → String → ℚ
  totalKWh : ℚ
  totalCount : ℕ
  firstDate : Option ℤ
  lastDate : Option ℤ
  avgPerReading : ℚ

set_option linter.unusedVariables false in
/-- `aggregateYear(readings, year)` from main.js.  The `year` argument
is accepted but never used by the source, exactly as here.  Month
buckets are keyed by the padded month string `'01'..'12'`, modelled by
the 1-based month number. -/
def aggregateYear (readings : List Reading) (year : ℤ) : AggResult :=
  let s := readings.foldl aggStep aggInit
  { byUser := fun u => (s.byUser u).map normUserAgg
    byMonthUser := s.byMonthUser
    totalKWh := round1 s.totalKWh
    totalCount := s.totalCount
    firstDate := s.firstTs
    lastDate := s.lastTs
    avgPerReading :=
      if s.totalCount = 0 then 0 else round1 (s.totalKWh / (s.totalCount : ℚ)) }

/-- kWh of a possibly-absent `byUser` entry, 0 when absent. -/
def kWhOf : Option UserAgg → ℚ
  | none => 0
  | some a => a.kWh

/-- count of a possibly-absent `byUser` entry, 0 when absent. -/
def countOf : Option UserAgg → ℕ
  | none => 0
  | some a => a.count

/-- Specification sum: the rounded deltas of user `u`'s readings. -/
def userDeltaSum (rs : List Reading) (u : String) : ℚ :=
  ((rs.filter (fun r => aggUser r = u)).map aggDelta).sum

/-- Specification sum: the rounded deltas of user `u`'s readings that
fall in month-of-year bucket `m` (the bucket ignores the calendar
year). -/
def monthUserDeltaSum (rs : List Reading) (m : ℤ) (u : String) : ℚ :=
  ((rs.filter (fun r => monthKeyOfTs r.timestamp = m ∧ aggUser r = u)).map aggDelta).sum

/-! ### Routes absent from the snapshot, modelled from the spec -/

/-- `String.prototype.trim`: strip leading and trailing whitespace
(computed over the character list). -/
def jsTrim (s : String) : String :=
  ⟨((s.data.dropWhile Char.isWhitespace).reverse.dropWhile Char.isWhitespace).reverse⟩

/-- Modelled from the spec (§4.4 step 5): resolve `ownerUsername` — if
`forUsername` is provided, non-empty after trimming, and differs from
the principal, the reading is recorded on behalf of `forUsername`;
otherwise the owner is the principal. -/
def resolveOwner (principal : String) (forUsername : Option String) : String :=
  match forUsername with
  | some f => if jsTrim f ≠ "" ∧ f ≠ principal then f else principal
  | none => principal

/-- Modelled from the spec: the POST /readings variant with on-behalf
support (spec §4.4 CreateReading steps 1-6 and 8).  The backend route
that persists `createdBy`/`ownerUsername`/`onBehalf` is missing from
src/ — only its caller src/src/public/home/js/main.js (which sends
`forUsername` and renders those fields) is present.  Per the spec:
validate `currentKWh` finite and > 0; `startKWh = last?.endKWh ?? 0`;
`deltaKWh = round(currentKWh - startKWh, 3)`, rejected if ≤ 0; owner is
`forUsername` when it is provided, non-empty after trimming and differs
from the principal, else the principal; `onBehalf` is true iff
`ownerUsername != createdBy`; the legacy `username` wire field aliases
`ownerUsername`.  The optional MonthlyAggregate rollup (step 7) is not
modelled. -/
def createReadingOnBehalf (principal : String) (currentKWh : Option ℚ)
    (notes : Option String) (forUsername : Option String)
    (store : List Reading) (now : ℤ) (newId : String) :
    ℕ × Option Reading × List Reading :=
  match currentKWh with
  | none => (400, none, store)
  | some c =>
    if c ≤ 0 then (400, none, store)
    else
      let startKWh := latestEndKWh store
      let deltaKWh := round3 (c - startKWh)
      if deltaKWh ≤ 0 then (400, none, store)
      else
        let owner := resolveOwner principal forUsername
        let reading : Reading :=
          { washId := newId
            username := some owner
            createdBy := some principal
            ownerUsername := some owner
            onBehalf := owner ≠ principal
            startKWh := startKWh
            endKWh := c
            deltaKWh := deltaKWh
            notes := notes.getD ""
            timestamp := now
            GlobalPK := "ALL_READINGS" }
        (201, some reading, reading :: store)

/-- Outcome of the DELETE /readings/:id route: HTTP status, optional
error body (204 has an empty body), and the store afterwards. -/
structure DeleteResult where
  status : ℕ
  body : Option String
  store : List Reading
  deriving Repr

/-- Modelled from the spec: the DELETE /readings/:id route and the
`deleteIfOwned(id, requester)` store operation (spec §4.3, §6).  The
route is missing from src/ — only its caller, the delete-button handler
in src/src/public/home/js/main.js, is present.  Per the spec: 400 when
the id path param is missing; the conditional delete removes the
reading only if `createdBy == requester`, or, for legacy rows with no
`createdBy`, only if the stored display name equals the requester;
a failed ownership predicate is a 403 AuthorizationError, distinct from
404 not-found; success is 204 with an empty body. -/
def deleteReading (idOpt : Option String) (principal : String)
    (store : List Reading) : DeleteResult :=
  match idOpt with
  | none => ⟨400, some "Missing id.", store⟩
  | some id =>
    match store.find? (fun r => r.washId = id) with
    | none => ⟨404, some "Reading not found.", store⟩
    | some r =>
      let owned : Bool :=
        match r.createdBy with
        | some c => c == principal
        | none => r.username == some principal
      if owned then
        ⟨204, none, store.filter (fun x => ¬ x.washId = id)⟩
      else
        ⟨403, some "Not allowed to delete this reading.", store⟩

/-! ### Concrete fixtures used by the witness theorems -/

/-- A reading whose timestamp is 2024-02-01T00:00:00.000Z — exactly the
end instant of the January 2024 window. -/
def boundaryReading : Reading :=
  { washId := "w-boundary"
    username := some "alice"
    createdBy := none
    ownerUsername := none
    onBehalf := false
    startKWh := 10
    endKWh := 12
    deltaKWh := 2
    notes := ""
    timestamp := 1706745600000
    GlobalPK := "ALL_READINGS" }

def sampleReading1 : Reading :=
  { washId := "w1"
    username := some "alice"
    createdBy := some "alice"
    ownerUsername := some "alice"
    onBehalf := false
    startKWh := 0
    endKWh := 10
    deltaKWh := 10
    notes := ""
    timestamp := 1000
    GlobalPK := "ALL_READINGS" }

def sampleReading2 : Reading :=
  { washId := "w2"
    username := some "alice"
    createdBy := some "alice"
    ownerUsername := some "bob"
    onBehalf := true
    startKWh := 10
    endKWh := 16
    deltaKWh := 6
    notes := ""
    timestamp := 2000
    GlobalPK := "ALL_READINGS" }

def sampleState : ServerState :=
  ⟨[sampleReading1, sampleReading2], fun _ _ _ => 0⟩

def sampleState1 : ServerState :=
  ⟨[sampleReading1], fun _ _ _ => 0⟩

/-- The reading the POST handler persists in the C1 witness scenario. -/
def expectedW2 : Reading :=
  { washId := "w2"
    username := some "alice"
    createdBy := none
    ownerUsername := none
    onBehalf := false
    startKWh := 10
    endKWh := 16
    deltaKWh := 6
    notes := ""
    timestamp := 2000
    GlobalPK := "ALL_READINGS" }

def sampleEmptyState : ServerState :=
  ⟨[], fun _ _ _ => 0⟩

/-- The reading the spec-modelled on-behalf POST persists for
CreateReading(alice, 20.0, forUsername="bob") on an empty store. -/
def expectedOnBehalf : Reading :=
  { washId := "b1"
    username := some "bob"
    createdBy := some "alice"
    ownerUsername := some "bob"
    onBehalf := true
    startKWh := 0
    endKWh := 20
    deltaKWh := 20
    notes := ""
    timestamp := 1000
    GlobalPK := "ALL_READINGS" }

/-- The reading the spec-modelled on-behalf POST persists for the same
submission without forUsername. -/
def expectedSelf : Reading :=
  { washId := "b2"
    username := some "alice"
    createdBy := some "alice"
    ownerUsername := some "alice"
    onBehalf := false
    startKWh := 0
    endKWh := 20
    deltaKWh := 20
    notes := ""
    timestamp := 1000
    GlobalPK := "ALL_READINGS" }

/-- A concrete jwt.decode stand-in: only the token "good" decodes, to a
claims object whose custom.family_name is "alice". -/
def sampleDecode : String → Option Claims :=
  fun s => if s = "good" then some ⟨some ⟨some "alice"⟩⟩ else none

/-- A concrete guarded route: echoes the resolved principal. -/
def sampleRoute : String → HttpResponse :=
  fun principal => ⟨200, principal⟩

/-! ## Helper lemmas -/

theorem moreRecent_cases (a b : Reading) : moreRecent a b = a ∨ moreRecent a b = b := by
  unfold moreRecent
  split
  · exact Or.inr rfl
  · exact Or.inl rfl

theorem foldl_moreRecent_mem (t : List Reading) (m : Reading) :
    t.foldl moreRecent m ∈ m :: t := by
  induction t generalizing m with
  | nil => simp
  | cons a t ih =>
    simp only [List.foldl_cons]
    rcases List.mem_cons.mp (ih (moreRecent m a)) with h1 | h2
    · rcases moreRecent_cases m a with hm | ha
      · rw [h1, hm]; exact List.mem_cons_self _ _
      · rw [h1, ha]; simp
    · simp [List.mem_cons_of_mem, h2]

theorem timestamp_le_moreRecent_left (a b : Reading) :
    a.timestamp ≤ (moreRecent a b).timestamp := by
  unfold moreRecent
  split <;> omega

theorem timestamp_le_moreRecent_right (a b : Reading) :
    b.timestamp ≤ (moreRecent a b).timestamp := by
  unfold moreRecent
  split <;> omega

theorem timestamp_le_foldl_moreRecent (t : List Reading) (m : Reading) :
    ∀ x ∈ m :: t, x.timestamp ≤ (t.foldl moreRecent m).timestamp := by
  induction t generalizing m with
  | nil =>
    intro x hx
    rcases List.mem_cons.mp hx with h | h
    · subst h; simp
    · cases h
  | cons a t ih =>
    intro x hx
    simp only [List.foldl_cons]
    have hnext := ih (moreRecent m a) (moreRecent m a) (List.mem_cons_self _ _)
    rcases List.mem_cons.mp hx with h1 | h2
    · exact le_trans (h1 ▸ timestamp_le_moreRecent_left m a) hnext
    · rcases List.mem_cons.mp h2 with h3 | h4
      · exact le_trans (h3 ▸ timestamp_le_moreRecent_right m a) hnext
      · exact ih (moreRecent m a) x (List.mem_cons_of_mem _ h4)

theorem foldl_mostRecentStep_some (t : List Reading) (m : Reading) :
    t.foldl
      (fun acc r =>
        match acc with
        | none => some r
        | some mm => some (moreRecent mm r))
      (some m) = some (t.foldl moreRecent m) := by
  induction t generalizing m with
  | nil => rfl
  | cons a t ih =>
    simp only [List.foldl_cons]
    exact ih (moreRecent m a)

theorem mostRecent_cons (a : Reading) (t : List Reading) :
    mostRecent (a :: t) = some (t.foldl moreRecent a) := by
  unfold mostRecent
  simp only [List.foldl_cons]
  exact foldl_mostRecentStep_some t a

/-- If `r` is the strict maximum of the store by timestamp, the
`Limit 1` newest-first query returns exactly `r`. -/
theorem mostRecent_of_strictMax (store : List Reading) (r : Reading)
    (hr : r ∈ store) (hmax : ∀ x ∈ store, x ≠ r → x.timestamp < r.timestamp) :
    mostRecent store = some r := by
  cases store with
  | nil => cases hr
  | cons a t =>
    rw [mostRecent_cons]
    have hmem : t.foldl moreRecent a ∈ a :: t := foldl_moreRecent_mem t a
    have hle : r.timestamp ≤ (t.foldl moreRecent a).timestamp :=
      timestamp_le_foldl_moreRecent t a r hr
    by_cases hsr : t.foldl moreRecent a = r
    · rw [hsr]
    · have := hmax _ hmem hsr
      omega

theorem latestEndKWh_of_strictMax (store : List Reading) (r : Reading)
    (hr : r ∈ store) (hmax : ∀ x ∈ store, x ≠ r → x.timestamp < r.timestamp) :
    latestEndKWh store = r.endKWh := by
  unfold latestEndKWh
  rw [mostRecent_of_strictMax store r hr hmax]

/-- Success branch of the POST handler: the persisted reading derives
`startKWh` from the store and `deltaKWh` by the rounded difference. -/
theorem createReading_ok (principal : String) (c : ℚ) (notes : Option String)
    (st : ServerState) (now : ℤ) (newId : String) (out : Reading)
    (h : (createReading principal (some c) notes st now newId).reading = some out) :
    out.startKWh = latestEndKWh st.readings
    ∧ out.deltaKWh = round3 (c - latestEndKWh st.readings) := by
  unfold createReading at h
  by_cases h1 : c ≤ 0
  · simp [h1] at h
  · by_cases h2 : round3 (c - latestEndKWh st.readings) ≤ 0
    · simp [h1, h2] at h
    · simp only [h1, h2, if_false, if_neg, reduceIte] at h
      rw [Option.some.injEq] at h
      subst h
      exact ⟨rfl, rfl⟩

theorem jsRound_nonpos {q : ℚ} (h : q ≤ 0) : jsRound q ≤ 0 := by
  unfold jsRound
  have h1 : ⌊q + 1/2⌋ ≤ ⌊(0 : ℚ) + 1/2⌋ := Int.floor_le_floor (by linarith)
  have h2 : ⌊(0 : ℚ) + 1/2⌋ = 0 := by norm_num
  omega

theorem round3_nonpos {q : ℚ} (h : q ≤ 0) : round3 q ≤ 0 := by
  unfold round3
  have h1 : q * 1000 ≤ 0 := by nlinarith
  have h2 : jsRound (q * 1000) ≤ 0 := jsRound_nonpos h1
  have h3 : (jsRound (q * 1000) : ℚ) ≤ 0 := by exact_mod_cast h2
  have h4 : (0 : ℚ) < 1000 := by norm_num
  exact div_nonpos_iff.mpr (Or.inr ⟨h3, le_of_lt h4⟩)

/-! ## Claim theorems -/

/-- C1: every successful POST /readings persists a reading whose
`startKWh` is the `endKWh` of the max-timestamp reading at insert time
(0 when the store was empty) and whose `deltaKWh` is
`currentKWh - startKWh` rounded to 3 decimals; `startKWh` is a function
of the store alone, never of the submitted values. -/
theorem createReading_startKWh_derived (principal : String) (c : ℚ)
    (notes : Option String) (st : ServerState) (now : ℤ) (newId : String)
    (out : Reading)
    (h : (createReading principal (some c) notes st now newId).reading = some out) :
    out.startKWh = latestEndKWh st.readings
    ∧ out.deltaKWh = round3 (c - latestEndKWh st.readings)
    ∧ (st.readings = [] → out.startKWh = 0)
    ∧ (∀ r ∈ st.readings,
        (∀ x ∈ st.readings, x ≠ r → x.timestamp < r.timestamp) →
        out.startKWh = r.endKWh)
    ∧ (∀ (c' : ℚ) (notes' : Option String) (newId' : String) (out' : Reading),
        (createReading principal (some c') notes' st now newId').reading = some out' →
        out'.startKWh = out.startKWh) := by
  obtain ⟨hstart, hdelta⟩ := createReading_ok principal c notes st now newId out h
  refine ⟨hstart, hdelta, ?_, ?_, ?_⟩
  · intro hemp
    rw [hstart, hemp]
    rfl
  · intro r hr hmax
    rw [hstart, latestEndKWh_of_strictMax st.readings r hr hmax]
  · intro c' notes' newId' out' h'
    rw [(createReading_ok principal c' notes' st now newId' out' h').1, hstart]

/-- Witness for C1: a store holding one reading ending at 10;
submitting 16 persists startKWh 10 and deltaKWh 6, both derived, not
submitted. -/
theorem createReading_startKWh_derived_witness :
    (createReading "alice" (some 16) none sampleState1 2000 "w2").reading
      = some expectedW2
    ∧ expectedW2.startKWh = latestEndKWh sampleState1.readings
    ∧ expectedW2.deltaKWh = round3 (16 - latestEndKWh sampleState1.readings) := by
  have hout : (createReading "alice" (some 16) none sampleState1 2000 "w2").reading
      = some expectedW2 := by
    norm_num [createReading, latestEndKWh, mostRecent, List.foldl_cons,
      List.foldl_nil, round3, jsRound, sampleState1, sampleReading1, expectedW2]
  obtain ⟨h1, h2, -⟩ :=
    createReading_startKWh_derived "alice" 16 none sampleState1 2000 "w2" expectedW2 hout
  exact ⟨hout, h1, h2⟩

/-- C2: POST /readings answers 400 and leaves the store untouched
exactly when `currentKWh` is not a positive finite number or the
rounded delta against the latest `endKWh` is non-positive; in
particular any `currentKWh` at or below the latest `endKWh` never
inserts. -/
theorem createReading_validation_exact (principal : String)
    (currentKWh : Option ℚ) (notes : Option String) (st : ServerState)
    (now : ℤ) (newId : String) :
    ((createReading principal currentKWh notes st now newId).status = 400 ↔
      currentKWh = none ∨ ∃ c, currentKWh = some c ∧
        (c ≤ 0 ∨ round3 (c - latestEndKWh st.readings) ≤ 0))
    ∧ ((createReading principal currentKWh notes st now newId).status = 400 →
        (createReading principal currentKWh notes st now newId).state = st)
    ∧ (∀ c : ℚ, currentKWh = some c → c ≤ latestEndKWh st.readings →
        (createReading principal currentKWh notes st now newId).status = 400
        ∧ (createReading principal currentKWh notes st now newId).state.readings
            = st.readings) := by
  have hdelta : ∀ c : ℚ, c ≤ latestEndKWh st.readings →
      round3 (c - latestEndKWh st.readings) ≤ 0 := by
    intro c hc
    exact round3_nonpos (by linarith)
  cases currentKWh with
  | none =>
    refine ⟨?_, ?_, ?_⟩
    · simp [createReading]
    · intro _; rfl
    · intro c hc; cases hc
  | some c =>
    by_cases h1 : c ≤ 0
    · refine ⟨?_, ?_, ?_⟩
      · simp only [createReading, if_pos h1]
        constructor
        · intro _
          exact Or.inr ⟨c, rfl, Or.inl h1⟩
        · intro _; trivial
      · intro _
        simp [createReading, h1]
      · intro c' hc' _
        obtain rfl : c = c' := by injection hc'
        constructor
        · simp [createReading, h1]
        · simp [createReading, h1]
    · by_cases h2 : round3 (c - latestEndKWh st.readings) ≤ 0
      · refine ⟨?_, ?_, ?_⟩
        · simp only [createReading, if_neg h1, if_pos h2]
          constructor
          · intro _
            exact Or.inr ⟨c, rfl, Or.inr h2⟩
          · intro _; trivial
        · intro _
          simp [createReading, h1, h2]
        · intro c' hc' _
          obtain rfl : c = c' := by injection hc'
          constructor
          · simp [createReading, h1, h2]
          · simp [createReading, h1, h2]
      · refine ⟨?_, ?_, ?_⟩
        · simp only [createReading, if_neg h1, if_neg h2]
          constructor
          · intro habs
            cases habs
          · rintro (hn | ⟨c', hc', hbad⟩)
            · cases hn
            · obtain rfl : c = c' := by injection hc'
              rcases hbad with hb | hb
              · exact absurd hb h1
              · exact absurd hb h2
        · intro habs
          simp [createReading, h1, h2] at habs
        · intro c' hc' hle
          obtain rfl : c = c' := by injection hc'
          exact absurd (hdelta c hle) h2

/-- Witness for C2: the spec scenario's third step — with the latest
endKWh at 15.5, submitting 15 (and likewise a missing value) yields 400
and leaves the two-row store unchanged. -/
theorem createReading_validation_exact_witness :
    (createReading "alice" (some 15) none sampleState 3000 "w3").status = 400
    ∧ (createReading "alice" (some 15) none sampleState 3000 "w3").state.readings
        = sampleState.readings
    ∧ (createReading "alice" none none sampleState 3000 "w3").status = 400 := by
  have h15 : (15 : ℚ) ≤ latestEndKWh sampleState.readings := by
    norm_num [latestEndKWh, mostRecent, List.foldl_cons, List.foldl_nil,
      moreRecent, sampleState, sampleReading1, sampleReading2]
  obtain ⟨hs, hr⟩ :=
    (createReading_validation_exact "alice" (some 15) none sampleState 3000 "w3").2.2
      15 rfl h15
  refine ⟨hs, hr, ?_⟩
  exact (createReading_validation_exact "alice" none none sampleState 3000 "w3").1.mpr
    (Or.inl rfl)

/-- C7: GET /latest-kwh answers the `endKWh` of the reading with the
greatest timestamp, and 0 when the store is empty. -/
theorem latestKwh_correct (store : List Reading) :
    (store = [] → latestKwhHandler store = 0)
    ∧ (∀ r ∈ store,
        (∀ x ∈ store, x ≠ r → x.timestamp < r.timestamp) →
        latestKwhHandler store = r.endKWh) := by
  constructor
  · intro h
    rw [h]
    rfl
  · intro r hr hmax
    unfold latestKwhHandler
    rw [mostRecent_of_strictMax store r hr hmax]

/-- Witness for C7: the empty store answers 0; a two-row store answers
the endKWh (15.5) of its newest row. -/
theorem latestKwh_correct_witness :
    latestKwhHandler [] = 0
    ∧ latestKwhHandler sampleState.readings = sampleReading2.endKWh :=
  ⟨(latestKwh_correct []).1 rfl,
   (latestKwh_correct sampleState.readings).2 sampleReading2 (by decide) (by decide)⟩

/-- C5: the spec's half-open month window fails on the code.  The
window for January 2024 ends at 1706745600000 (2024-02-01T00:00:00.000Z),
and a reading with exactly that timestamp IS returned by the handler —
the DynamoDB BETWEEN key condition is inclusive on both bounds — and it
is returned again for February, so the boundary reading is listed under
two months. -/
theorem listReadings_includes_window_end :
    (parseYearMonth (some 2024) (some 1) 2024).endTimestamp = 1706745600000
    ∧ boundaryReading.timestamp = 1706745600000
    ∧ boundaryReading ∈ listReadings [boundaryReading] (some 2024) (some 1) 2024
    ∧ boundaryReading ∈ listReadings [boundaryReading] (some 2024) (some 2) 2024 := by
  decide

/-- C6: with a month selector that is absent or out of 1..12, the
window is the full UTC calendar year Jan 1 through the next Jan 1, and
an absent year selector defaults to the current UTC year. -/
theorem parseYearMonth_defaults (queryYear queryMonth : Option ℤ)
    (nowUTCYear : ℤ) :
    ((∀ m : ℤ, queryMonth = some m → m < 1 ∨ 12 < m) →
      parseYearMonth queryYear queryMonth nowUTCYear =
        ⟨queryYear.getD nowUTCYear,
         dateUTC (queryYear.getD nowUTCYear) 0 1,
         dateUTC (queryYear.getD nowUTCYear + 1) 0 1⟩)
    ∧ (queryYear = none →
        (parseYearMonth queryYear queryMonth nowUTCYear).year = nowUTCYear) := by
  constructor
  · intro hm
    have hv : validMonth queryMonth = false := by
      cases queryMonth with
      | none => rfl
      | some m =>
        have := hm m rfl
        simp only [validMonth, Bool.and_eq_false_iff, decide_eq_false_iff_not, not_le]
        omega
    unfold parseYearMonth
    rw [hv]
    simp
  · intro hy
    subst hy
    unfold parseYearMonth
    by_cases hv : validMonth queryMonth <;> simp [hv]

/-- Witness for C6: month 13 with an absent year, current UTC year
2025: the window is calendar year 2025. -/
theorem parseYearMonth_defaults_witness :
    parseYearMonth none (some 13) 2025 =
      ⟨2025, dateUTC 2025 0 1, dateUTC 2026 0 1⟩
    ∧ (parseYearMonth none (some 13) 2025).year = 2025 := by
  obtain ⟨h1, h2⟩ := parseYearMonth_defaults none (some 13) 2025
  refine ⟨?_, h2 rfl⟩
  have := h1 (by intro m hm; injection hm with h; omega)
  simpa using this

/-- C8: the authentication middleware rejects with 401 — without
consulting the route — when the token cookie is missing, is not a
string, or does not decode to an object; otherwise the route runs with
the principal resolved from the nested `custom.family_name` claim,
`"unknown"` when that claim is absent. -/
theorem checkAuthentication_cases (decode : String → Option Claims) :
    (∀ route : String → HttpResponse,
      withAuth none decode route =
        ⟨401, "Authentication required: No token provided or invalid type."⟩)
    ∧ (∀ route : String → HttpResponse,
        withAuth (some .nonString) decode route =
          ⟨401, "Authentication required: No token provided or invalid type."⟩)
    ∧ (∀ (s : String) (route : String → HttpResponse), decode s = none →
        (withAuth (some (.str s)) decode route).status = 401
        ∧ ∀ route' : String → HttpResponse,
            withAuth (some (.str s)) decode route
              = withAuth (some (.str s)) decode route')
    ∧ (∀ (s : String) (claims : Claims) (route : String → HttpResponse),
        s ≠ "" → decode s = some claims →
        withAuth (some (.str s)) decode route = route (principalOf claims))
    ∧ (∀ claims : Claims,
        claims.custom.bind (fun cc => cc.family_name) = none →
        principalOf claims = "unknown") := by
  refine ⟨fun _ => rfl, fun _ => rfl, ?_, ?_, ?_⟩
  · intro s route hdec
    by_cases hs : s = ""
    · subst hs
      exact ⟨rfl, fun _ => rfl⟩
    · constructor
      · simp [withAuth, checkAuthentication, hs, hdec]
      · intro route'
        simp [withAuth, checkAuthentication, hs, hdec]
  · intro s claims route hs hdec
    simp [withAuth, checkAuthentication, hs, hdec]
  · intro claims hno
    simp [principalOf, hno, jsOrS]

/-- Witness for C8: a concrete decoder that only accepts the token
"good" and maps it to family_name "alice": the missing, non-string and
undecodable cases answer 401 and the good token reaches the route as
"alice"; a claims object with no family_name resolves to "unknown". -/
theorem checkAuthentication_cases_witness :
    withAuth none sampleDecode sampleRoute =
      ⟨401, "Authentication required: No token provided or invalid type."⟩
    ∧ withAuth (some .nonString) sampleDecode sampleRoute =
        ⟨401, "Authentication required: No token provided or invalid type."⟩
    ∧ (withAuth (some (.str "bad")) sampleDecode sampleRoute).status = 401
    ∧ withAuth (some (.str "good")) sampleDecode sampleRoute = ⟨200, "alice"⟩
    ∧ principalOf ⟨none⟩ = "unknown" := by
  obtain ⟨h1, h2, h3, h4, h5⟩ := checkAuthentication_cases sampleDecode
  refine ⟨h1 sampleRoute, h2 sampleRoute,
    (h3 "bad" sampleRoute (by decide)).1, ?_, h5 ⟨none⟩ rfl⟩
  have := h4 "good" ⟨some ⟨some "alice"⟩⟩ sampleRoute (by decide) (by decide)
  rw [this]
  rfl

/-- Success branch of the spec-modelled on-behalf POST: the persisted
reading carries the resolved ownership fields. -/
theorem createReadingOnBehalf_ok (principal : String) (c : ℚ)
    (notes forUsername : Option String) (store : List Reading) (now : ℤ)
    (newId : String) (out : Reading)
    (h : (createReadingOnBehalf principal (some c) notes forUsername store now newId).2.1
        = some out) :
    out.createdBy = some principal
    ∧ out.ownerUsername = some (resolveOwner principal forUsername)
    ∧ out.onBehalf = decide (resolveOwner principal forUsername ≠ principal) := by
  unfold createReadingOnBehalf at h
  by_cases h1 : c ≤ 0
  · simp [h1] at h
  · by_cases h2 : round3 (c - latestEndKWh store) ≤ 0
    · simp [h1, h2] at h
    · simp only [h1, h2, if_false, reduceIte] at h
      rw [Option.some.injEq] at h
      subst h
      exact ⟨rfl, rfl, rfl⟩

/-- C3: on the spec-modelled on-behalf POST route, a `forUsername` that
is non-empty after trimming and differs from the principal yields a
persisted reading with createdBy = principal, ownerUsername =
forUsername and onBehalf = true; otherwise the owner is the principal
and onBehalf is false. -/
theorem createReadingOnBehalf_ownership (principal : String)
    (currentKWh : Option ℚ) (notes forUsername : Option String)
    (store : List Reading) (now : ℤ) (newId : String) (out : Reading)
    (h : (createReadingOnBehalf principal currentKWh notes forUsername store now newId).2.1
        = some out) :
    (∀ f : String, forUsername = some f → jsTrim f ≠ "" → f ≠ principal →
      out.createdBy = some principal
      ∧ out.ownerUsername = some f
      ∧ out.onBehalf = true)
    ∧ ((∀ f : String, forUsername = some f → jsTrim f = "" ∨ f = principal) →
        out.ownerUsername = some principal ∧ out.onBehalf = false) := by
  cases currentKWh with
  | none => simp [createReadingOnBehalf] at h
  | some c =>
    obtain ⟨hcb, hown, hob⟩ :=
      createReadingOnBehalf_ok principal c notes forUsername store now newId out h
    constructor
    · intro f hf htrim hne
      subst hf
      have howner : resolveOwner principal (some f) = f := by
        simp [resolveOwner, htrim, hne]
      refine ⟨hcb, ?_, ?_⟩
      · rw [hown, howner]
      · rw [hob, howner]
        simp [hne]
    · intro hfail
      have howner : resolveOwner principal forUsername = principal := by
        cases forUsername with
        | none => rfl
        | some f =>
          have hdeg : jsTrim f = "" ∨ f = principal := hfail f rfl
          have hcond : ¬ (jsTrim f ≠ "" ∧ f ≠ principal) := by
            rcases hdeg with h' | h'
            · intro hc; exact hc.1 h'
            · intro hc; exact hc.2 h'
          simp [resolveOwner, hcond]
      constructor
      · rw [hown, howner]
      · rw [hob, howner]
        simp

/-- Witness for C3: the spec scenario CreateReading(alice, 20.0,
forUsername="bob") persists createdBy=alice, ownerUsername=bob,
onBehalf=true; the same submission without forUsername is owned by
alice with onBehalf=false. -/
theorem createReadingOnBehalf_ownership_witness :
    (createReadingOnBehalf "alice" (some 20) none (some "bob") [] 1000 "b1").2.1
      = some expectedOnBehalf
    ∧ expectedOnBehalf.createdBy = some "alice"
    ∧ expectedOnBehalf.ownerUsername = some "bob"
    ∧ expectedOnBehalf.onBehalf = true
    ∧ ((createReadingOnBehalf "alice" (some 20) none none [] 1000 "b2").2.1.map
          Reading.ownerUsername = some (some "alice")) := by
  have hro : resolveOwner "alice" (some "bob") = "bob" := by decide
  have hout : (createReadingOnBehalf "alice" (some 20) none (some "bob") [] 1000 "b1").2.1
      = some expectedOnBehalf := by
    norm_num [createReadingOnBehalf, latestEndKWh, mostRecent, round3, jsRound,
      hro, expectedOnBehalf]
    decide
  have hout2 : (createReadingOnBehalf "alice" (some 20) none none [] 1000 "b2").2.1
      = some expectedSelf := by
    norm_num [createReadingOnBehalf, latestEndKWh, mostRecent, round3, jsRound,
      resolveOwner, expectedSelf]
  obtain ⟨hyes, -⟩ := createReadingOnBehalf_ownership "alice" (some 20) none
    (some "bob") [] 1000 "b1" expectedOnBehalf hout
  obtain ⟨h1, h2, h3⟩ := hyes "bob" rfl (by decide) (by decide)
  obtain ⟨-, hno⟩ := createReadingOnBehalf_ownership "alice" (some 20) none
    none [] 1000 "b2" expectedSelf hout2
  obtain ⟨h4, -⟩ := hno (by intro f hf; cases hf)
  refine ⟨hout, h1, h2, h3, ?_⟩
  rw [hout2]
  simp [h4]

/-- C4: on the spec-modelled DELETE route, a requester who is not the
reading's creator gets 403 and the store is unchanged; the creator gets
204 with an empty body and the row is removed; a missing id is 404, a
different status from the authorization failure. -/
theorem deleteReading_authorization (store : List Reading)
    (id principal : String) (r : Reading)
    (hfind : store.find? (fun x => x.washId = id) = some r) :
    (∀ c : String, r.createdBy = some c → c ≠ principal →
      deleteReading (some id) principal store =
        ⟨403, some "Not allowed to delete this reading.", store⟩)
    ∧ (r.createdBy = some principal →
        (deleteReading (some id) principal store).status = 204
        ∧ (deleteReading (some id) principal store).body = none
        ∧ (deleteReading (some id) principal store).store
            = store.filter (fun x => ¬ x.washId = id))
    ∧ (∀ id' : String, store.find? (fun x => x.washId = id') = none →
        deleteReading (some id') principal store =
          ⟨404, some "Reading not found.", store⟩) := by
  refine ⟨?_, ?_, ?_⟩
  · intro c hc hne
    simp [deleteReading, hfind, hc, hne]
  · intro hc
    refine ⟨?_, ?_, ?_⟩ <;> simp [deleteReading, hfind, hc]
  · intro id' hnone
    simp [deleteReading, hnone]

/-- Witness for C4: bob cannot delete alice's reading (403, store
intact); alice can (204, empty body, row gone); an unknown id is 404. -/
theorem deleteReading_authorization_witness :
    deleteReading (some "w1") "bob" sampleState.readings =
      ⟨403, some "Not allowed to delete this reading.", sampleState.readings⟩
    ∧ (deleteReading (some "w1") "alice" sampleState.readings).status = 204
    ∧ (deleteReading (some "w1") "alice" sampleState.readings).body = none
    ∧ (deleteReading (some "w1") "alice" sampleState.readings).store
        = [sampleReading2]
    ∧ deleteReading (some "zz") "alice" sampleState.readings =
        ⟨404, some "Reading not found.", sampleState.readings⟩ := by
  have hfind : sampleState.readings.find? (fun x => x.washId = "w1")
      = some sampleReading1 := by decide
  obtain ⟨hforbid, hok, hnf⟩ :=
    deleteReading_authorization sampleState.readings "w1" "bob" sampleReading1 hfind
  obtain ⟨hforbid2, hok2, hnf2⟩ :=
    deleteReading_authorization sampleState.readings "w1" "alice" sampleReading1 hfind
  obtain ⟨s204, bnone, srest⟩ := hok2 (by decide)
  refine ⟨hforbid "alice" (by decide) (by decide), s204, bnone, ?_, hnf2 "zz" (by decide)⟩
  rw [srest]
  decide

/-! ## Aggregation lemmas -/

/-- The `byUser` component of one loop iteration, written out. -/
theorem aggStep_byUser_eq (s : AggState) (r : Reading) (u : String) :
    (aggStep s r).byUser u =
      if u = aggUser r then
        some ⟨((s.byUser (aggUser r)).getD ⟨0, 0, none, none⟩).kWh + aggDelta r,
              ((s.byUser (aggUser r)).getD ⟨0, 0, none, none⟩).count + 1,
              some (jsMinQ ((s.byUser (aggUser r)).getD ⟨0, 0, none, none⟩).minD (aggDelta r)),
              some (jsMaxQ ((s.byUser (aggUser r)).getD ⟨0, 0, none, none⟩).maxD (aggDelta r))⟩
      else s.byUser u := rfl

/-- The `byMonthUser` component of one loop iteration, written out. -/
theorem aggStep_byMonthUser_eq (s : AggState) (r : Reading) (m : ℤ) (u : String) :
    (aggStep s r).byMonthUser m u =
      if m = monthKeyOfTs r.timestamp ∧ u = aggUser r then
        s.byMonthUser m u + aggDelta r
      else s.byMonthUser m u := rfl

theorem aggStep_byUser_kWh (s : AggState) (r : Reading) (u : String) :
    kWhOf ((aggStep s r).byUser u) =
      kWhOf (s.byUser u) + (if aggUser r = u then aggDelta r else 0) := by
  by_cases h : u = aggUser r
  · rw [aggStep_byUser_eq, if_pos h, h, if_pos rfl]
    cases hb : s.byUser (aggUser r) <;> simp [kWhOf, hb]
  · have h' : ¬ aggUser r = u := fun e => h e.symm
    rw [aggStep_byUser_eq, if_neg h, if_neg h', add_zero]

theorem aggStep_byUser_count (s : AggState) (r : Reading) (u : String) :
    countOf ((aggStep s r).byUser u) =
      countOf (s.byUser u) + (if aggUser r = u then 1 else 0) := by
  by_cases h : u = aggUser r
  · rw [aggStep_byUser_eq, if_pos h, h, if_pos rfl]
    cases hb : s.byUser (aggUser r) <;> simp [countOf, hb]
  · have h' : ¬ aggUser r = u := fun e => h e.symm
    rw [aggStep_byUser_eq, if_neg h, if_neg h', add_zero]

theorem aggStep_byMonthUser (s : AggState) (r : Reading) (m : ℤ) (u : String) :
    (aggStep s r).byMonthUser m u =
      s.byMonthUser m u +
        (if monthKeyOfTs r.timestamp = m ∧ aggUser r = u then aggDelta r else 0) := by
  by_cases h : m = monthKeyOfTs r.timestamp ∧ u = aggUser r
  · have h' : monthKeyOfTs r.timestamp = m ∧ aggUser r = u := ⟨h.1.symm, h.2.symm⟩
    rw [aggStep_byMonthUser_eq, if_pos h, if_pos h']
  · have h' : ¬ (monthKeyOfTs r.timestamp = m ∧ aggUser r = u) := by
      intro hc
      exact h ⟨hc.1.symm, hc.2.symm⟩
    rw [aggStep_byMonthUser_eq, if_neg h, if_neg h', add_zero]

theorem userDeltaSum_cons (r : Reading) (t : List Reading) (u : String) :
    userDeltaSum (r :: t) u =
      (if aggUser r = u then aggDelta r else 0) + userDeltaSum t u := by
  unfold userDeltaSum
  by_cases h : aggUser r = u
  · simp [List.filter_cons, h]
  · simp [List.filter_cons, h]

theorem monthUserDeltaSum_cons (r : Reading) (t : List Reading) (m : ℤ) (u : String) :
    monthUserDeltaSum (r :: t) m u =
      (if monthKeyOfTs r.timestamp = m ∧ aggUser r = u then aggDelta r else 0)
        + monthUserDeltaSum t m u := by
  unfold monthUserDeltaSum
  by_cases h : monthKeyOfTs r.timestamp = m ∧ aggUser r = u
  · simp [List.filter_cons, h]
  · simp [List.filter_cons, h]

theorem foldl_aggStep_totalKWh (rs : List Reading) (s : AggState) :
    (rs.foldl aggStep s).totalKWh = s.totalKWh + (rs.map aggDelta).sum := by
  induction rs generalizing s with
  | nil => simp
  | cons r t ih =>
    simp only [List.foldl_cons, List.map_cons, List.sum_cons]
    rw [ih (aggStep s r)]
    have hstep : (aggStep s r).totalKWh = s.totalKWh + aggDelta r := by
      simp [aggStep]
    rw [hstep]
    ring

theorem foldl_aggStep_totalCount (rs : List Reading) (s : AggState) :
    (rs.foldl aggStep s).totalCount = s.totalCount + rs.length := by
  induction rs generalizing s with
  | nil => simp
  | cons r t ih =>
    simp only [List.foldl_cons, List.length_cons]
    rw [ih (aggStep s r)]
    have hstep : (aggStep s r).totalCount = s.totalCount + 1 := by
      simp [aggStep]
    rw [hstep]
    omega

theorem foldl_aggStep_byUser_kWh (rs : List Reading) (s : AggState) (u : String) :
    kWhOf ((rs.foldl aggStep s).byUser u) = kWhOf (s.byUser u) + userDeltaSum rs u := by
  induction rs generalizing s with
  | nil => simp [userDeltaSum]
  | cons r t ih =>
    simp only [List.foldl_cons]
    rw [ih (aggStep s r), aggStep_byUser_kWh, userDeltaSum_cons]
    ring

theorem foldl_aggStep_byUser_count (rs : List Reading) (s : AggState) (u : String) :
    countOf ((rs.foldl aggStep s).byUser u) =
      countOf (s.byUser u) + (rs.filter (fun r => aggUser r = u)).length := by
  induction rs generalizing s with
  | nil => simp
  | cons r t ih =>
    simp only [List.foldl_cons]
    rw [ih (aggStep s r), aggStep_byUser_count]
    by_cases h : aggUser r = u
    · simp [List.filter_cons, h]
      omega
    · simp [List.filter_cons, h]

theorem foldl_aggStep_byMonthUser (rs : List Reading) (s : AggState) (m : ℤ) (u : String) :
    (rs.foldl aggStep s).byMonthUser m u =
      s.byMonthUser m u + monthUserDeltaSum rs m u := by
  induction rs generalizing s with
  | nil => simp [monthUserDeltaSum]
  | cons r t ih =>
    simp only [List.foldl_cons]
    rw [ih (aggStep s r), aggStep_byMonthUser, monthUserDeltaSum_cons]
    ring

theorem kWhOf_map_norm (o : Option UserAgg) :
    kWhOf (o.map normUserAgg) = kWhOf o := by
  cases o <;> rfl

theorem countOf_map_norm (o : Option UserAgg) :
    countOf (o.map normUserAgg) = countOf o := by
  cases o <;> rfl

theorem aggregateYear_byUser_kWh (rs : List Reading) (year : ℤ) (u : String) :
    kWhOf ((aggregateYear rs year).byUser u) = userDeltaSum rs u := by
  show kWhOf (((rs.foldl aggStep aggInit).byUser u).map normUserAgg) = _
  rw [kWhOf_map_norm, foldl_aggStep_byUser_kWh]
  simp [aggInit, kWhOf]

theorem aggregateYear_byUser_count (rs : List Reading) (year : ℤ) (u : String) :
    countOf ((aggregateYear rs year).byUser u) =
      (rs.filter (fun r => aggUser r = u)).length := by
  show countOf (((rs.foldl aggStep aggInit).byUser u).map normUserAgg) = _
  rw [countOf_map_norm, foldl_aggStep_byUser_count]
  simp [aggInit, countOf]

theorem aggregateYear_byMonthUser (rs : List Reading) (year : ℤ) (m : ℤ) (u : String) :
    (aggregateYear rs year).byMonthUser m u = monthUserDeltaSum rs m u := by
  show (rs.foldl aggStep aggInit).byMonthUser m u = _
  rw [foldl_aggStep_byMonthUser]
  simp [aggInit]

theorem aggregateYear_totalCount (rs : List Reading) (year : ℤ) :
    (aggregateYear rs year).totalCount = rs.length := by
  show (rs.foldl aggStep aggInit).totalCount = _
  rw [foldl_aggStep_totalCount]
  simp [aggInit]

theorem aggregateYear_totalKWh_pre (rs : List Reading) :
    (rs.foldl aggStep aggInit).totalKWh = (rs.map aggDelta).sum := by
  rw [foldl_aggStep_totalKWh]
  simp [aggInit]

/-- Partition identity: summing per-fiber filtered sums over any index
set containing every fiber recovers the whole sum. -/
theorem sum_fiber_list {κ : Type} [DecidableEq κ] (rs : List Reading)
    (f : Reading → κ) (g : Reading → ℚ) (S : Finset κ)
    (hS : ∀ r ∈ rs, f r ∈ S) :
    (∑ k ∈ S, ((rs.filter (fun r => f r = k)).map g).sum) = (rs.map g).sum := by
  induction rs with
  | nil => simp
  | cons r t ih =>
    have hmem : f r ∈ S := hS r (List.mem_cons_self r t)
    have ht : ∀ x ∈ t, f x ∈ S := fun x hx => hS x (List.mem_cons_of_mem r hx)
    have hsplit : ∀ k ∈ S,
        (((r :: t).filter (fun x => f x = k)).map g).sum =
          (if f r = k then g r else 0) + ((t.filter (fun x => f x = k)).map g).sum := by
      intro k _
      by_cases h : f r = k
      · simp [List.filter_cons, h]
      · simp [List.filter_cons, h]
    rw [Finset.sum_congr rfl hsplit, Finset.sum_add_distrib, ih ht,
      Finset.sum_ite_eq S (f r) (fun _ => g r), if_pos hmem]
    simp

/-- C9: for every list of readings, aggregateYear's per-user kWh total
is the arithmetic sum of the fixed-rule-rounded deltas of that user's
readings, its per-user count is the number of that user's readings, the
global count is the list length, the displayed global total is the
rounded sum of all rounded deltas, and the average per reading is the
zero-safe quotient of the pre-rounding total by the count. -/
theorem aggregateYear_per_user_totals (rs : List Reading) (year : ℤ) (u : String) :
    kWhOf ((aggregateYear rs year).byUser u) = userDeltaSum rs u
    ∧ countOf ((aggregateYear rs year).byUser u) =
        (rs.filter (fun r => aggUser r = u)).length
    ∧ (aggregateYear rs year).totalCount = rs.length
    ∧ (aggregateYear rs year).totalKWh = round1 ((rs.map aggDelta).sum)
    ∧ (aggregateYear rs year).avgPerReading =
        (if rs.length = 0 then 0
         else round1 ((rs.map aggDelta).sum / (rs.length : ℚ))) := by
  refine ⟨aggregateYear_byUser_kWh rs year u, aggregateYear_byUser_count rs year u,
    aggregateYear_totalCount rs year, ?_, ?_⟩
  · show round1 ((rs.foldl aggStep aggInit).totalKWh) = _
    rw [aggregateYear_totalKWh_pre]
  · show (if (rs.foldl aggStep aggInit).totalCount = 0 then (0 : ℚ)
        else round1 ((rs.foldl aggStep aggInit).totalKWh
          / ((rs.foldl aggStep aggInit).totalCount : ℚ))) = _
    rw [aggregateYear_totalKWh_pre]
    have hcount : (rs.foldl aggStep aggInit).totalCount = rs.length := by
      rw [foldl_aggStep_totalCount]
      simp [aggInit]
    rw [hcount]

/-- C10: aggregateYear's rollups are mutually consistent and
year-independent — the per-user kWh sums add up to the pre-rounding
global total, each month bucket is the year-blind month-of-year sum,
the month buckets of a user add up to that user's kWh sum, and the
result is literally independent of the year argument. -/
theorem aggregateYear_rollup_consistency (rs : List Reading)
    (year year' : ℤ) (u : String) (m : ℤ) :
    (∑ v ∈ (rs.map aggUser).toFinset,
        kWhOf ((aggregateYear rs year).byUser v)) = (rs.map aggDelta).sum
    ∧ (aggregateYear rs year).byMonthUser m u = monthUserDeltaSum rs m u
    ∧ (∑ mk ∈ (rs.map (fun r => monthKeyOfTs r.timestamp)).toFinset,
          (aggregateYear rs year).byMonthUser mk u)
        = kWhOf ((aggregateYear rs year).byUser u)
    ∧ aggregateYear rs year = aggregateYear rs year' := by
  refine ⟨?_, aggregateYear_byMonthUser rs year m u, ?_, rfl⟩
  · have hcongr : ∀ v ∈ (rs.map aggUser).toFinset,
        kWhOf ((aggregateYear rs year).byUser v) = userDeltaSum rs v :=
      fun v _ => aggregateYear_byUser_kWh rs year v
    rw [Finset.sum_congr rfl hcongr]
    exact sum_fiber_list rs aggUser aggDelta _
      (fun r hr => List.mem_toFinset.mpr (List.mem_map_of_mem aggUser hr))
  · have hcongr : ∀ mk ∈ (rs.map (fun r => monthKeyOfTs r.timestamp)).toFinset,
        (aggregateYear rs year).byMonthUser mk u = monthUserDeltaSum rs mk u :=
      fun mk _ => aggregateYear_byMonthUser rs year mk u
    rw [Finset.sum_congr rfl hcongr, aggregateYear_byUser_kWh]
    have hfilter : ∀ mk : ℤ,
        rs.filter (fun r => monthKeyOfTs r.timestamp = mk ∧ aggUser r = u) =
          (rs.filter (fun r => aggUser r = u)).filter
            (fun r => monthKeyOfTs r.timestamp = mk) := by
      intro mk
      rw [List.filter_filter]
      apply List.filter_congr
      intro r _
      simp [Bool.and_comm]
    have hsum : ∀ mk : ℤ, monthUserDeltaSum rs mk u =
        (((rs.filter (fun r => aggUser r = u)).filter
            (fun r => monthKeyOfTs r.timestamp = mk)).map aggDelta).sum := by
      intro mk
      unfold monthUserDeltaSum
      rw [hfilter mk]
    rw [Finset.sum_congr rfl (fun mk _ => hsum mk)]
    exact sum_fiber_list (rs.filter (fun r => aggUser r = u))
      (fun r => monthKeyOfTs r.timestamp) aggDelta _
      (fun r hr => List.mem_toFinset.mpr
        (List.mem_map_of_mem _ (List.mem_of_mem_filter hr)))

end WashingTracker
